import Mathlib

/-!
Shallow embedding of the stage1_manual discussion-processing pipeline of the
moodle-ai-processor repository: text sanitation (`clean_text`), section
extraction (`extract_section_from_text`), post classification
(`_classify_post_type`, `is_ai_feedback`, `is_likely_image_submission`),
thread reconstruction (`_structure_discussion_data`), outline aggregation
(`generate_outline_submission_report`) and outline feedback orchestration
(`generate_outline_feedback`, `generate_aggregate_analysis`,
`process_outline_discussion`).

Python strings are modelled as Lean `String`/`List Char`; the `re` usage is
specialised to the concrete patterns appearing in the source; external
collaborators (BeautifulSoup text extraction, the OpenRouter generation
client, `json.loads`) are taken as function parameters.  Division and
rounding are modelled over `ℚ` (exact rationals).
-/

set_option maxRecDepth 100000

namespace Py

/-- Python whitespace (`str.isspace`, `str.split()`, `str.strip()`, regex `\s`). -/
def isPySpace (c : Char) : Bool :=
  let n := c.toNat
  (9 ≤ n && n ≤ 13) || n == 32 || (28 ≤ n && n ≤ 31) || n == 0x85 || n == 0xa0 ||
  n == 0x1680 || (0x2000 ≤ n && n ≤ 0x200a) || n == 0x2028 || n == 0x2029 ||
  n == 0x202f || n == 0x205f || n == 0x3000

def lowerL (l : List Char) : List Char := l.map Char.toLower

/-- Model of Python `str.lower()` (ASCII case folding). -/
def lowerStr (s : String) : String := String.mk (lowerL s.data)

/-- `isPre pat l`: `pat` is a literal prefix of `l` (Python `str.startswith`). -/
def isPre : List Char → List Char → Bool
  | [], _ => true
  | _ :: _, [] => false
  | a :: as, b :: bs => a == b && isPre as bs

/-- Substring occurrence, Python `pat in text`. -/
def containsL (text pat : List Char) : Bool :=
  match text with
  | [] => isPre pat []
  | _ :: rest => isPre pat text || containsL rest pat

def containsStr (text pat : String) : Bool := containsL text.data pat.data

def startsWithStr (text pat : String) : Bool := isPre pat.data text.data

/-- Drop trailing characters satisfying `p`. -/
def dropTrail (p : Char → Bool) (l : List Char) : List Char :=
  (l.reverse.dropWhile p).reverse

/-- Python `str.strip()`. -/
def pyStripL (l : List Char) : List Char := dropTrail isPySpace (l.dropWhile isPySpace)

def pyStrip (s : String) : String := String.mk (pyStripL s.data)

/-- Number of maximal non-whitespace runs: Python `len([w for w in text.split() if w.strip()])`
(`str.split()` drops empty tokens, so the inner filter keeps everything). -/
def cwAux : Bool → List Char → Nat
  | _, [] => 0
  | inWord, c :: rest =>
    if isPySpace c then cwAux false rest
    else (if inWord then 0 else 1) + cwAux true rest

def countWordsStr (s : String) : Nat := cwAux false s.data

/-- One-pass implementation of `re.sub('<[^<]+?>', '', ·)`.  The non-greedy
pattern matches, at each leftmost `'<'`, at least one following character that
is not `'<'`, up to the first `'>'` after those characters.  State `some acc`
means the scanner is inside a candidate tag whose interior (reversed) is
`acc`; the candidate is abandoned verbatim when the input ends or another
`'<'` is met first (interior characters other than the opening `'<'` can
never start a match themselves, so they are emitted unrescanned). -/
def stripTagsAux : Option (List Char) → List Char → List Char
  | none, [] => []
  | none, c :: rest =>
    if c == '<' then stripTagsAux (some []) rest else c :: stripTagsAux none rest
  | some acc, [] => '<' :: acc.reverse
  | some acc, c :: rest =>
    if c == '<' then '<' :: acc.reverse ++ stripTagsAux (some []) rest
    else if c == '>' && !acc.isEmpty then stripTagsAux none rest
    else stripTagsAux (some (c :: acc)) rest

def stripTags (l : List Char) : List Char := stripTagsAux none l

/-- Python `str.replace(pat, rep)`: left-to-right, non-overlapping, the
replacement text is not rescanned.  The counter argument skips the remaining
characters of a pattern occurrence that was already emitted (structural
recursion on the text so that the kernel can evaluate it). -/
def replaceAllAux (pat rep : List Char) : Nat → List Char → List Char
  | _, [] => []
  | Nat.succ k, _ :: rest => replaceAllAux pat rep k rest
  | 0, c :: rest =>
    if isPre pat (c :: rest) && !pat.isEmpty then
      rep ++ replaceAllAux pat rep (pat.length - 1) rest
    else
      c :: replaceAllAux pat rep 0 rest

def replaceAll (pat rep : List Char) (l : List Char) : List Char :=
  replaceAllAux pat rep 0 l

/-- `re.sub(r'\s+', ' ', ·)`: replace each maximal whitespace run by a single
space.  The flag records whether the previous character was whitespace. -/
def collapseAux : Bool → List Char → List Char
  | _, [] => []
  | sp, c :: rest =>
    if isPySpace c then
      (if sp then collapseAux true rest else ' ' :: collapseAux true rest)
    else c :: collapseAux false rest

def collapseWs (l : List Char) : List Char := collapseAux false l

/-- Body of `clean_text` of ai_feedback_collector.py and outline_analyzer.py
(the two copies are textually identical): strip tags, decode the four
entities `&nbsp; &amp; &lt; &gt;` in that order, collapse whitespace, strip. -/
def cleanTextL (l : List Char) : List Char :=
  pyStripL (collapseWs (replaceAll "&gt;".data ">".data (replaceAll "&lt;".data "<".data
    (replaceAll "&amp;".data "&".data (replaceAll "&nbsp;".data " ".data (stripTags l))))))

/-- `clean_text`, including the `if not html_text: return ""` guard. -/
def cleanText (s : String) : String :=
  if s = "" then "" else String.mk (cleanTextL s.data)

/-- `[A-Z0-9]` under `re.IGNORECASE` (ASCII letters and digits). -/
def isSecChar (c : Char) : Bool :=
  ('A' ≤ c && c ≤ 'Z') || ('a' ≤ c && c ≤ 'z') || ('0' ≤ c && c ≤ '9')

/-- Case-insensitive literal prefix match. -/
def matchCI (w l : List Char) : Bool := isPre (lowerL w) (lowerL l)

/-- `re.search(word + r'\s*([A-Z0-9]+)', text, re.IGNORECASE)`: the leftmost
position where `word` matches case-insensitively followed by optional
whitespace and at least one `[A-Z0-9]` character; returns the captured
greedy alphanumeric run.  (The greedy `\s*` cannot backtrack usefully since
whitespace never matches `[A-Z0-9]`.) -/
def searchLabel (w : List Char) : List Char → Option (List Char)
  | [] => none
  | c :: rest =>
    if matchCI w (c :: rest) then
      match ((c :: rest).drop w.length).dropWhile isPySpace with
      | [] => searchLabel w rest
      | d :: ds =>
        if isSecChar d then some ((d :: ds).takeWhile isSecChar)
        else searchLabel w rest
    else searchLabel w rest

/-- The `for pattern in section_patterns` loop: first pattern with a match
wins, else `"Unknown"`. -/
def extractFrom : List (List Char) → String → String
  | [], _ => "Unknown"
  | w :: ws, s =>
    match searchLabel w s.data with
    | some t => String.mk t
    | none => extractFrom ws s

/-- Python `round(x, 1)`-style rounding on exact rationals: half to even. -/
def roundHalfEven (q : ℚ) : ℤ :=
  let n := ⌊q⌋
  let r := q - (n : ℚ)
  if r < 1/2 then n
  else if (1 : ℚ)/2 < r then n + 1
  else if n % 2 = 0 then n else n + 1

def pyRound1 (q : ℚ) : ℚ := (roundHalfEven (q * 10) : ℚ) / 10

end Py

/-- A JSON scalar as it can appear in the `parent` field of an exported
record: the export under test stores it as a string, the documented format
says `0`/absent is the numeric root sentinel. -/
inductive JVal where
  | jint (n : Int)
  | jstr (s : String)
deriving DecidableEq, Repr

/-- One raw record of the export as consumed by ai_feedback_collector.py and
outline_analyzer.py (`post.get(...)` accesses; `parent` kept as the JSON
scalar, absent key = `none`). -/
structure JPost where
  id : Int
  userid : Int
  userfullname : String
  subject : String
  message : String
  created : Int
  parent : Option JVal
deriving DecidableEq, Repr

namespace DiscussionProcessor

/-- One raw record as consumed by discussion_processor.py (its numeric
comparisons `parent == 0` / `parent > 0` read the field as a number). -/
structure RawPost where
  id : Int
  discussion : Int
  parent : Int
  created : Int
  modified : Int
  subject : String
  message : String
  wordcount : Int
  charcount : Int
deriving DecidableEq, Repr

/-- `_classify_post_type`: the six-rule cascade over the lower-cased clean
message and the parent id (the lower-cased subject is computed by the source
but never used). -/
def classify_post_type (clean_message : String) (parent : Int) : String :=
  let m := Py.lowerStr clean_message
  if Py.containsStr m "outline" || Py.containsStr m "position:" || Py.containsStr m "reason1" then
    "student_outline"
  else if Py.containsStr m "deepseek" || Py.containsStr m "chatgpt" || Py.containsStr m "ai" then
    "ai_feedback"
  else if parent = 0 && 200 < m.length then
    "instructor_prompt"
  else if Py.containsStr m "agree" || Py.containsStr m "disagree" then
    "student_response"
  else if 0 < parent then
    "reply"
  else
    "general_post"

/-- The fixed trivial-token list of `_sanitize_post`. -/
def trivialMsgs : List String := ["1", "test", "ok", "yes", "no"]

/-- Sanitized projection of a raw post (`_sanitize_post`), keeping the fields
the structuring pass reads.  `getText` models the external
`BeautifulSoup(raw, 'html.parser').get_text()` collaborator. -/
structure SanPost where
  id : Int
  parent : Int
  subject : String
  clean_message : String
  wordcount : Int
  created : Int
  has_content : Bool
  post_type : String
deriving DecidableEq, Repr

def sanitize_post (getText : String → String) (r : RawPost) : SanPost :=
  let cm := if r.message = "" then "" else Py.pyStrip (getText r.message)
  { id := r.id
    parent := r.parent
    subject := Py.pyStrip r.subject
    clean_message := cm
    wordcount := r.wordcount
    created := r.created
    has_content := decide (15 < cm.length) && !(trivialMsgs.contains (Py.lowerStr cm))
    post_type := classify_post_type cm r.parent }

/-- The first loop of `_structure_discussion_data`: sanitize every record and
keep exactly those with `has_content` (a returned dict is always truthy, so
the Python guard `clean_post and clean_post['has_content']` is the
`has_content` test). -/
def contentPosts (getText : String → String) (raws : List RawPost) : List SanPost :=
  raws.filterMap (fun r =>
    let c := sanitize_post getText r
    if c.has_content then some c else none)

/-- State of the hierarchy-building loop: the accumulated `root_posts` (as
ids, in append order) and, for every post id, the `replies` list attached so
far in `thread_map` (absent key = `[]`). -/
abbrev ThreadState := List Int × (Int → List Int)

/-- One iteration of the second loop of `_structure_discussion_data`:
a `parent == 0` post gets `replies` reset to `[]` and joins `root_posts`;
a post whose parent id is a `thread_map` key is appended to that parent's
`replies`; any other post (orphan) is left unattached. -/
def threadStep (ids : List Int) (st : ThreadState) (p : SanPost) : ThreadState :=
  if p.parent = 0 then
    (st.1 ++ [p.id], Function.update st.2 p.id [])
  else if p.parent ∈ ids then
    (st.1, Function.update st.2 p.parent (st.2 p.parent ++ [p.id]))
  else st

/-- The hierarchy-building pass over the content posts. -/
def buildThreads (posts : List SanPost) : ThreadState :=
  posts.foldl (threadStep (posts.map (·.id))) ([], fun _ => [])

/-- `_is_instructor_post`. -/
def is_instructor_post (p : SanPost) : Bool :=
  let m := Py.lowerStr p.clean_message
  Py.containsStr m "first spend" || Py.containsStr m "reply to this post" ||
  Py.containsStr m "pair up and discuss" || Py.containsStr m "you are an experienced" ||
  (300 < m.length && p.parent = 0)

/-- Result shape of `_structure_discussion_data` (the parts under
verification: content posts, thread forest, student contributions). -/
structure DiscussionData where
  posts : List SanPost
  roots : List Int
  rep : Int → List Int
  student_contributions : List SanPost

def structure_discussion_data (getText : String → String) (raws : List RawPost) :
    DiscussionData :=
  let posts := contentPosts getText raws
  let t := buildThreads posts
  { posts := posts
    roots := t.1
    rep := t.2
    student_contributions := posts.filter (fun p => !(is_instructor_post p)) }

/-- A node id reachable in the reconstructed forest: a root, or a member of
the `replies` list of a reachable node. -/
inductive Reaches (roots : List Int) (rep : Int → List Int) : Int → Prop where
  | root {n : Int} : n ∈ roots → Reaches roots rep n
  | child {m n : Int} : Reaches roots rep m → n ∈ rep m → Reaches roots rep n

end DiscussionProcessor

namespace AIFeedbackCollector

/-- `clean_text` (ai_feedback_collector.py, lines 35-49). -/
def clean_text : String → String := Py.cleanText

/-- `count_words`. -/
def count_words : String → Nat := Py.countWordsStr

/-- The five patterns of `extract_section_from_text` (lines 58-73), in
priority order. -/
def section_patterns : List (List Char) :=
  ["Section".data, "Sec".data, "Class".data, "Group".data, "section".data]

def extract_section_from_text (text : String) : String :=
  Py.extractFrom section_patterns text

/-- Return shape of `is_likely_image_submission`. -/
structure ImageCheck where
  is_image : Bool
  confidence : String
  reason : String
deriving DecidableEq, Repr

/-- The fixed image-indicator vocabulary. -/
def image_indicators : List String :=
  ["attached", "image", "picture", "screenshot", "photo",
   "see above", "see below", "shown", "displayed"]

def image_tag_patterns : List String := ["<img", ".jpg", ".png", ".jpeg", ".gif"]

/-- `is_likely_image_submission` (lines 143-192). -/
def is_likely_image_submission (message subject : String) (word_count : Nat) : ImageCheck :=
  if word_count ≤ 5 then
    { is_image := true, confidence := "high", reason := "very_short_message" }
  else
    match (if word_count ≤ 15 then
             image_indicators.find? (fun ind => Py.containsStr (Py.lowerStr message) ind)
           else none) with
    | some ind =>
      { is_image := true, confidence := "high", reason := "short_message_with_" ++ ind }
    | none =>
      if image_tag_patterns.any (fun pat => Py.containsStr (Py.lowerStr message) pat) then
        { is_image := true, confidence := "high", reason := "image_html_tags" }
      else if word_count ≤ 10 &&
          (["feedback", "comment", "review"].any
            (fun w => Py.containsStr (Py.lowerStr subject) w)) then
        { is_image := true, confidence := "medium", reason := "short_with_feedback_subject" }
      else
        { is_image := false, confidence := "low", reason := "sufficient_text_content" }

/-- The fixed pedagogical-feedback vocabulary of `is_ai_feedback`, in source
order. -/
def ai_feedback_phrases : List String :=
  ["your outline", "this outline", "great work", "well done",
   "excellent", "good job", "consider", "suggestion", "feedback",
   "improvement", "strengthen", "clarify", "expand", "develop",
   "thesis statement", "topic sentence", "supporting evidence",
   "conclusion", "body paragraph", "introduction", "structure",
   "organization", "flow", "transition", "coherence", "clarity"]

/-- Strings matched by `r'you (could|should|might|can) (consider|try|add|improve)'`:
the regex only ever matches one of these sixteen literal phrases. -/
def advice_combo_phrases : List String :=
  (["could", "should", "might", "can"]).flatMap (fun a =>
    (["consider", "try", "add", "improve"]).map (fun b => "you " ++ a ++ " " ++ b))

def summary_phrases : List String := ["overall", "in general", "to summarize"]

/-- Return shape of `is_ai_feedback`. -/
structure FeedbackAnalysis where
  is_feedback : Bool
  feedback_type : String
  confidence : String
  feedback_score : Nat
  matched_phrases : List String
  word_count : Nat
  is_image : Bool
deriving DecidableEq, Repr

/-- `is_ai_feedback` (lines 75-141): phrase/pattern scoring, then the image
check takes precedence over the text-feedback score thresholds. -/
def is_ai_feedback (post : JPost) : FeedbackAnalysis :=
  let message := clean_text post.message
  let subject := post.subject
  let word_count := count_words message
  let ml := Py.lowerStr message
  let phrase_hits := ai_feedback_phrases.filter (fun ph => Py.containsStr ml ph)
  let advice := advice_combo_phrases.any (fun ph => Py.containsStr ml ph)
  let summary := summary_phrases.any (fun ph => Py.containsStr ml ph)
  let feedback_score :=
    phrase_hits.length + (if advice then 2 else 0) + (if summary then 1 else 0)
  let matched := phrase_hits ++ (if advice then ["suggestion pattern"] else []) ++
    (if summary then ["summary pattern"] else [])
  let img := is_likely_image_submission message subject word_count
  let tc : String × String :=
    if img.is_image then ("image_based", img.confidence)
    else if 3 ≤ feedback_score then ("text_feedback", "high")
    else if 1 ≤ feedback_score && 30 < word_count then ("text_feedback", "medium")
    else if 100 < word_count &&
        (["feedback", "comment", "review"].any (fun w => Py.containsStr ml w)) then
      ("text_feedback", "medium")
    else ("none", "low")
  { is_feedback := tc.1 != "none"
    feedback_type := tc.1
    confidence := tc.2
    feedback_score := feedback_score
    matched_phrases := matched
    word_count := word_count
    is_image := img.is_image }

/-- One entry of the list built by `collect_ai_feedback_posts`
(`section` renamed `sectionLabel`: `section` is a Lean keyword). -/
structure FeedbackPost where
  id : Int
  userid : Int
  userfullname : String
  subject : String
  message : String
  sectionLabel : String
  created : Int
  parent : Option JVal
  feedback_analysis : FeedbackAnalysis
deriving DecidableEq, Repr

def feedback_record (post : JPost) : FeedbackPost :=
  let message := clean_text post.message
  { id := post.id
    userid := post.userid
    userfullname := post.userfullname
    subject := post.subject
    message := message
    sectionLabel := extract_section_from_text (message ++ " " ++ post.subject)
    created := post.created
    parent := post.parent
    feedback_analysis := is_ai_feedback post }

/-- `collect_ai_feedback_posts` (lines 194-225): skip a post exactly when its
`parent` field equals the string `'0'`, otherwise classify it and keep it if
`is_feedback`. -/
def collect_ai_feedback_posts (posts : List JPost) : List FeedbackPost :=
  posts.filterMap (fun post =>
    if post.parent == some (JVal.jstr "0") then none
    else if (is_ai_feedback post).is_feedback then some (feedback_record post)
    else none)

end AIFeedbackCollector

namespace OutlineAnalyzer

/-- `clean_text` (outline_analyzer.py, lines 35-49; textually identical to the
collector's copy). -/
def clean_text : String → String := Py.cleanText

def count_words : String → Nat := Py.countWordsStr

/-- The four patterns of this module's `extract_section_from_text`
(lines 59-74; the collector's copy has a redundant fifth lower-case pattern). -/
def section_patterns : List (List Char) :=
  ["Section".data, "Sec".data, "Class".data, "Group".data]

def extract_section_from_text (text : String) : String :=
  Py.extractFrom section_patterns text

def outline_keywords : List String :=
  ["outline", "plan", "structure", "thesis", "introduction",
   "body paragraph", "conclusion", "topic sentence", "main point",
   "argument", "evidence", "supporting details"]

def ai_feedback_starters : List String :=
  ["your outline", "this outline", "great work", "well done",
   "consider", "suggestion", "feedback", "improvement"]

/-- The acceptance test of `identify_outline_posts` on a non-skipped post:
substantial (more than 20 words) and (outline keywords present or not
starting like AI feedback). -/
def outline_condition (post : JPost) : Bool :=
  let message := clean_text post.message
  let word_count := count_words message
  let has_outline_keywords :=
    outline_keywords.any (fun k => Py.containsStr (Py.lowerStr message) k)
  let is_likely_ai_feedback :=
    ai_feedback_starters.any (fun st => Py.startsWithStr (Py.lowerStr message) st)
  20 < word_count && (has_outline_keywords || !is_likely_ai_feedback)

/-- One entry of the list built by `identify_outline_posts`
(`section` renamed `sectionLabel`). -/
structure OutlineRec where
  id : Int
  userid : Int
  userfullname : String
  subject : String
  message : String
  word_count : Nat
  sectionLabel : String
  created : Int
  parent : Option JVal
deriving DecidableEq, Repr

def outline_record (post : JPost) : OutlineRec :=
  let message := clean_text post.message
  { id := post.id
    userid := post.userid
    userfullname := post.userfullname
    subject := post.subject
    message := message
    word_count := count_words message
    sectionLabel := extract_section_from_text (message ++ " " ++ post.subject)
    created := post.created
    parent := post.parent }

/-- `identify_outline_posts` (lines 76-129): skip a post exactly when its
`parent` field equals the string `'0'`, else keep it when
`outline_condition` holds. -/
def identify_outline_posts (posts : List JPost) : List OutlineRec :=
  posts.filterMap (fun post =>
    if post.parent == some (JVal.jstr "0") then none
    else if outline_condition post then some (outline_record post) else none)

/-- State of the grouping loop of `generate_outline_submission_report`: the
two defaultdicts `sections` (section label to outline list) and
`total_words_by_section`. -/
def aggStep (st : (String → List OutlineRec) × (String → Nat)) (o : OutlineRec) :
    (String → List OutlineRec) × (String → Nat) :=
  (Function.update st.1 o.sectionLabel (st.1 o.sectionLabel ++ [o]),
   Function.update st.2 o.sectionLabel (st.2 o.sectionLabel + o.word_count))

def aggFold (l : List OutlineRec) : (String → List OutlineRec) × (String → Nat) :=
  l.foldl aggStep (fun _ => [], fun _ => 0)

/-- Per-section entry of `section_stats` in
`generate_outline_submission_report` (lines 178-192): post count, summed
word count, `round(total/count, 1)`, ordered per-participant summaries. -/
structure SectionStats where
  student_count : Nat
  total_words : Nat
  average_words : ℚ
  students : List (String × Nat × String)
deriving DecidableEq, Repr

def section_stats (l : List OutlineRec) (sec : String) : SectionStats :=
  let outlines := (aggFold l).1 sec
  let total := (aggFold l).2 sec
  { student_count := outlines.length
    total_words := total
    average_words := Py.pyRound1 ((total : ℚ) / (outlines.length : ℚ))
    students := outlines.map (fun o => (o.userfullname, o.word_count, o.subject)) }

/-- The outlines carrying a given section label, in scan order. -/
def sectionGroup (l : List OutlineRec) (sec : String) : List OutlineRec :=
  l.filter (fun o => o.sectionLabel == sec)

/-- Number of distinct author references in a section group.  This follows
the spec's words ("count distinct anonymized author references"); it is the
comparator for the code's `student_count`, which counts posts. -/
def specDistinctAuthors (l : List OutlineRec) (sec : String) : Nat :=
  (((sectionGroup l sec).map (·.userfullname)).dedup).length

end OutlineAnalyzer

namespace OutlineFeedbackProcessor

/-- One candidate built by `extract_student_outlines`. -/
structure Outline where
  student_name : String
  post_id : Int
  outline_text : String
  word_count : Int
  timestamp : Int
deriving DecidableEq, Repr

/-- The key set of a successfully `json.loads`-parsed generation response,
restricted to the schema requested by the individual-feedback prompt (a key
can be absent). -/
structure ParsedFb where
  overall_score : Option String
  strengths : Option (List String)
  areas_for_improvement : Option (List String)
  thesis_feedback : Option String
  structure_feedback : Option String
  evidence_feedback : Option String
  suggestions : Option (List String)
  comparison_to_sample : Option String
deriving DecidableEq, Repr

/-- The dict returned by `generate_outline_feedback` for one candidate
(`Option` = key present/absent; the always-set metadata keys are plain). -/
structure FeedbackRec where
  overall_score : Option String
  strengths : Option (List String)
  areas_for_improvement : Option (List String)
  thesis_feedback : Option String
  structure_feedback : Option String
  evidence_feedback : Option String
  suggestions : Option (List String)
  comparison_to_sample : Option String
  raw_feedback : Option String
  parsing_error : Option String
  error : Option String
  student_name : String
  post_id : Int
deriving DecidableEq, Repr

/-- `generate_outline_feedback` (lines 132-224).  `svc` models
`self.ai_client.generate_response` (`Except.error` = raised exception,
carrying `str(e)`); `parse` models `json.loads` restricted to the expected
schema (`none` = `json.JSONDecodeError`). -/
def generate_outline_feedback (svc : Outline → Except String String)
    (parse : String → Option ParsedFb) (o : Outline) : FeedbackRec :=
  match svc o with
  | .error e =>
    { overall_score := none, strengths := none, areas_for_improvement := none
      thesis_feedback := none, structure_feedback := none, evidence_feedback := none
      suggestions := none, comparison_to_sample := none
      raw_feedback := none, parsing_error := none
      error := some e
      student_name := o.student_name, post_id := o.post_id }
  | .ok response =>
    match parse response with
    | some fb =>
      { overall_score := fb.overall_score, strengths := fb.strengths
        areas_for_improvement := fb.areas_for_improvement
        thesis_feedback := fb.thesis_feedback, structure_feedback := fb.structure_feedback
        evidence_feedback := fb.evidence_feedback, suggestions := fb.suggestions
        comparison_to_sample := fb.comparison_to_sample
        raw_feedback := none, parsing_error := none, error := none
        student_name := o.student_name, post_id := o.post_id }
    | none =>
      { overall_score := some "N/A", strengths := none, areas_for_improvement := none
        thesis_feedback := none, structure_feedback := none, evidence_feedback := none
        suggestions := none, comparison_to_sample := none
        raw_feedback := some response
        parsing_error := some "Could not parse JSON response"
        error := none
        student_name := o.student_name, post_id := o.post_id }

/-- The per-candidate loop of `process_outline_discussion` (lines 352-356):
one `generate_outline_feedback` result appended per candidate. -/
def individual_feedbacks (svc : Outline → Except String String)
    (parse : String → Option ParsedFb) (outlines : List Outline) : List FeedbackRec :=
  outlines.map (generate_outline_feedback svc parse)

/-- The collation filter of `generate_aggregate_analysis` (line 230):
`'error' not in f and 'areas_for_improvement' in f`. -/
def valid_feedbacks (fbs : List FeedbackRec) : List FeedbackRec :=
  fbs.filter (fun f => f.error.isNone && f.areas_for_improvement.isSome)

/-- Result of `generate_aggregate_analysis` as far as control flow is
concerned: either the early `{"error": "No valid feedbacks to analyze"}`
return, or a synthesis call whose prompt collates exactly the valid
feedbacks. -/
inductive AggregateResult where
  | noValid
  | synthesized (collated : List FeedbackRec)
deriving DecidableEq, Repr

def generate_aggregate_analysis (fbs : List FeedbackRec) : AggregateResult :=
  let v := valid_feedbacks fbs
  if v.isEmpty then .noValid else .synthesized v

end OutlineFeedbackProcessor

section Fixtures

/-- An orphan record: parent id 7 is neither the sentinel 0 nor the id of any
record in the input. -/
def c1OrphanRaw : DiscussionProcessor.RawPost :=
  { id := 1, discussion := 1, parent := 7, created := 0, modified := 0,
    subject := "", message := "abcdefghijklmnopqrstuvwxyz", wordcount := 1, charcount := 26 }

def c1RootRaw : DiscussionProcessor.RawPost :=
  { id := 1, discussion := 1, parent := 0, created := 0, modified := 0,
    subject := "", message := "the instructor prompt text", wordcount := 4, charcount := 26 }

def c1ReplyRaw : DiscussionProcessor.RawPost :=
  { id := 2, discussion := 1, parent := 1, created := 10, modified := 10,
    subject := "", message := "a thoughtful student reply", wordcount := 4, charcount := 26 }

/-- A record whose plain body is the trivial token `"ok"`. -/
def c8OkRaw : DiscussionProcessor.RawPost :=
  { id := 3, discussion := 1, parent := 1, created := 20, modified := 20,
    subject := "re", message := "ok", wordcount := 1, charcount := 2 }

def c3o1 : OutlineAnalyzer.OutlineRec :=
  { id := 1, userid := 5, userfullname := "Alice", subject := "Section X",
    message := "first outline", word_count := 10, sectionLabel := "X", created := 0,
    parent := none }

def c3o2 : OutlineAnalyzer.OutlineRec :=
  { id := 2, userid := 5, userfullname := "Alice", subject := "Section X again",
    message := "second outline", word_count := 20, sectionLabel := "X", created := 1,
    parent := none }

def c5Post : JPost :=
  { id := 10, userid := 2, userfullname := "Stu", subject := "feedback",
    message := "See attached screenshot", created := 0, parent := some (.jint 1) }

def c6Msg : String := String.mk (List.replicate 200 'x') ++ " outline"

def c10FbPost : JPost :=
  { id := 21, userid := 3, userfullname := "A", subject := "",
    message := "hi", created := 0, parent := some (.jint 0) }

def c10OutPost : JPost :=
  { id := 22, userid := 4, userfullname := "B", subject := "",
    message := "my outline plan for the essay includes introduction body and conclusion with arguments evidence and examples for each point in detail",
    created := 0, parent := some (.jint 0) }

def ofpOutline : OutlineFeedbackProcessor.Outline :=
  { student_name := "S1", post_id := 3, outline_text := "sample outline text",
    word_count := 60, timestamp := 0 }

/-- A generation collaborator that answers every candidate with fixed
non-JSON prose. -/
def ofpOkSvc : OutlineFeedbackProcessor.Outline → Except String String :=
  fun _ => .ok "Here is some feedback in plain prose."

/-- A generation collaborator that raises on every candidate. -/
def ofpErrSvc : OutlineFeedbackProcessor.Outline → Except String String :=
  fun _ => .error "connection timed out"

/-- A `json.loads` collaborator for which no response parses. -/
def ofpNoParse : String → Option OutlineFeedbackProcessor.ParsedFb := fun _ => none

end Fixtures


/-! ## Helper lemmas -/

namespace Py

theorem searchLabel_congr (w1 w2 : List Char) (h : lowerL w1 = lowerL w2) :
    ∀ l, searchLabel w1 l = searchLabel w2 l := by
  have hlen : w1.length = w2.length := by
    simpa [lowerL] using congrArg List.length h
  intro l
  induction l with
  | nil => rfl
  | cons c rest ih =>
    have hm : matchCI w1 (c :: rest) = matchCI w2 (c :: rest) := by
      simp [matchCI, h]
    simp only [searchLabel, hm, hlen, ih]

end Py

/-! ## C7: section extraction -/

/-- C7: `extract_section_from_text` is a total function that tries, in
priority order, the case-insensitive patterns `Section`/`Sec`/`Class`/`Group`
(each followed by optional whitespace and one or more alphanumerics), returns
the first match's captured token and `"Unknown"` when no pattern matches; the
analyzer's four-pattern copy agrees with the collector's five-pattern copy on
every input (the fifth, lower-case pattern is subsumed by the first under
`re.IGNORECASE`), and `"Please see Section B2 notes"` yields `"B2"`. -/
theorem C7_extract_section (s : String) :
    AIFeedbackCollector.extract_section_from_text s =
      (match Py.searchLabel "Section".data s.data with
       | some t => String.mk t
       | none =>
         match Py.searchLabel "Sec".data s.data with
         | some t => String.mk t
         | none =>
           match Py.searchLabel "Class".data s.data with
           | some t => String.mk t
           | none =>
             match Py.searchLabel "Group".data s.data with
             | some t => String.mk t
             | none =>
               match Py.searchLabel "section".data s.data with
               | some t => String.mk t
               | none => "Unknown") ∧
    OutlineAnalyzer.extract_section_from_text s =
      AIFeedbackCollector.extract_section_from_text s ∧
    AIFeedbackCollector.extract_section_from_text "Please see Section B2 notes" = "B2" := by
  refine ⟨rfl, ?_, by decide⟩
  have h5 : Py.searchLabel "section".data s.data = Py.searchLabel "Section".data s.data :=
    Py.searchLabel_congr _ _ (by decide) s.data
  simp only [OutlineAnalyzer.extract_section_from_text, AIFeedbackCollector.extract_section_from_text,
    OutlineAnalyzer.section_patterns, AIFeedbackCollector.section_patterns, Py.extractFrom, h5]
  cases Py.searchLabel "Section".data s.data <;>
    cases hb : Py.searchLabel "Sec".data s.data <;>
      cases hc : Py.searchLabel "Class".data s.data <;>
        cases hd : Py.searchLabel "Group".data s.data <;> simp

/-! ## C5: image-rule precedence -/

/-- C5: for every post whose cleaned body has word count at most 5, the image
sub-routine returns `is_image`/`high`/`very_short_message` and `is_ai_feedback`
classifies the post `image_based` with confidence `high`, regardless of any
keywords in the body or subject. -/
theorem C5_image_rule (post : JPost)
    (h : AIFeedbackCollector.count_words (AIFeedbackCollector.clean_text post.message) ≤ 5) :
    AIFeedbackCollector.is_likely_image_submission (AIFeedbackCollector.clean_text post.message)
        post.subject (AIFeedbackCollector.count_words (AIFeedbackCollector.clean_text post.message)) =
      { is_image := true, confidence := "high", reason := "very_short_message" } ∧
    (AIFeedbackCollector.is_ai_feedback post).feedback_type = "image_based" ∧
    (AIFeedbackCollector.is_ai_feedback post).confidence = "high" ∧
    (AIFeedbackCollector.is_ai_feedback post).is_image = true := by
  have himg : AIFeedbackCollector.is_likely_image_submission
      (AIFeedbackCollector.clean_text post.message) post.subject
      (AIFeedbackCollector.count_words (AIFeedbackCollector.clean_text post.message)) =
      { is_image := true, confidence := "high", reason := "very_short_message" } := by
    simp [AIFeedbackCollector.is_likely_image_submission, h]
  refine ⟨himg, ?_, ?_, ?_⟩ <;>
    simp [AIFeedbackCollector.is_ai_feedback, himg]

/-- C5 witness: the body `"See attached screenshot"` (word count 3) with a
keyword-bearing subject is classified image/high/very_short_message. -/
theorem C5_image_rule_witness :
    AIFeedbackCollector.count_words (AIFeedbackCollector.clean_text c5Post.message) ≤ 5 ∧
    ((AIFeedbackCollector.is_ai_feedback c5Post).feedback_type = "image_based" ∧
     (AIFeedbackCollector.is_ai_feedback c5Post).confidence = "high") :=
  ⟨by decide, (C5_image_rule c5Post (by decide)).2.1, (C5_image_rule c5Post (by decide)).2.2.1⟩

/-! ## C6: post-type precedence -/

/-- C6: `_classify_post_type` evaluates its six rules in the listed order and
returns the tag of the first rule that matches; in particular a root post of
body length over 200 whose body contains `outline` or `position:` is tagged
`student_outline`, not `instructor_prompt`. -/
theorem C6_post_type_precedence (msg m : String) (parent : Int) (hm : m = Py.lowerStr msg) :
    ((Py.containsStr m "outline" || Py.containsStr m "position:" ||
        Py.containsStr m "reason1") = true →
      DiscussionProcessor.classify_post_type msg parent = "student_outline") ∧
    ((Py.containsStr m "outline" || Py.containsStr m "position:" ||
        Py.containsStr m "reason1") = false →
      (Py.containsStr m "deepseek" || Py.containsStr m "chatgpt" ||
        Py.containsStr m "ai") = true →
      DiscussionProcessor.classify_post_type msg parent = "ai_feedback") ∧
    ((Py.containsStr m "outline" || Py.containsStr m "position:" ||
        Py.containsStr m "reason1") = false →
      (Py.containsStr m "deepseek" || Py.containsStr m "chatgpt" ||
        Py.containsStr m "ai") = false →
      parent = 0 → 200 < m.length →
      DiscussionProcessor.classify_post_type msg parent = "instructor_prompt") ∧
    ((Py.containsStr m "outline" || Py.containsStr m "position:" ||
        Py.containsStr m "reason1") = false →
      (Py.containsStr m "deepseek" || Py.containsStr m "chatgpt" ||
        Py.containsStr m "ai") = false →
      (decide (parent = 0) && decide (200 < m.length)) = false →
      (Py.containsStr m "agree" || Py.containsStr m "disagree") = true →
      DiscussionProcessor.classify_post_type msg parent = "student_response") ∧
    ((Py.containsStr m "outline" || Py.containsStr m "position:" ||
        Py.containsStr m "reason1") = false →
      (Py.containsStr m "deepseek" || Py.containsStr m "chatgpt" ||
        Py.containsStr m "ai") = false →
      (decide (parent = 0) && decide (200 < m.length)) = false →
      (Py.containsStr m "agree" || Py.containsStr m "disagree") = false →
      0 < parent →
      DiscussionProcessor.classify_post_type msg parent = "reply") ∧
    ((Py.containsStr m "outline" || Py.containsStr m "position:" ||
        Py.containsStr m "reason1") = false →
      (Py.containsStr m "deepseek" || Py.containsStr m "chatgpt" ||
        Py.containsStr m "ai") = false →
      (decide (parent = 0) && decide (200 < m.length)) = false →
      (Py.containsStr m "agree" || Py.containsStr m "disagree") = false →
      ¬ 0 < parent →
      DiscussionProcessor.classify_post_type msg parent = "general_post") ∧
    ((Py.containsStr m "outline" = true ∨ Py.containsStr m "position:" = true) →
      parent = 0 → 200 < m.length →
      DiscussionProcessor.classify_post_type msg parent = "student_outline" ∧
      "student_outline" ≠ "instructor_prompt") := by
  subst hm
  refine ⟨?_, ?_, ?_, ?_, ?_, ?_, ?_⟩
  · intro h1
    simp [DiscussionProcessor.classify_post_type, h1]
  · intro h1 h2
    simp [DiscussionProcessor.classify_post_type, h1, h2]
  · intro h1 h2 h3 h4
    simp [DiscussionProcessor.classify_post_type, h1, h2, h3, h4]
  · intro h1 h2 h3 h4
    simp [DiscussionProcessor.classify_post_type, h1, h2, h3, h4]
  · intro h1 h2 h3 h4 h5
    simp [DiscussionProcessor.classify_post_type, h1, h2, h3, h4, h5]
  · intro h1 h2 h3 h4 h5
    simp [DiscussionProcessor.classify_post_type, h1, h2, h3, h4, h5]
  · intro h1 h2 h3
    have hr1 : (Py.containsStr (Py.lowerStr msg) "outline" ||
        Py.containsStr (Py.lowerStr msg) "position:" ||
        Py.containsStr (Py.lowerStr msg) "reason1") = true := by
      rcases h1 with h | h <;> simp [h]
    exact ⟨by simp [DiscussionProcessor.classify_post_type, hr1], by decide⟩

/-- C6 witness: a 208-character root body containing `outline` is classified
`student_outline` even though the `instructor_prompt` rule's conditions hold. -/
theorem C6_post_type_precedence_witness :
    Py.containsStr (Py.lowerStr c6Msg) "outline" = true ∧
    200 < (Py.lowerStr c6Msg).length ∧
    DiscussionProcessor.classify_post_type c6Msg 0 = "student_outline" :=
  ⟨by decide, by decide,
    ((C6_post_type_precedence c6Msg (Py.lowerStr c6Msg) 0 rfl).2.2.2.2.2.2
      (Or.inl (by decide)) rfl (by decide)).1⟩

/-! ## C10: root-sentinel comparison -/

/-- C10: `collect_ai_feedback_posts` and `identify_outline_posts` exclude a
post exactly when its `parent` field equals the string `"0"`; a post whose
`parent` is the integer `0` fails the exclusion test and is processed and
classified like any reply. -/
theorem C10_root_sentinel :
    (∀ (posts : List JPost) (p : JPost), p ∈ posts → p.parent = some (JVal.jint 0) →
      (((AIFeedbackCollector.is_ai_feedback p).is_feedback = true →
          AIFeedbackCollector.feedback_record p ∈
            AIFeedbackCollector.collect_ai_feedback_posts posts) ∧
       (OutlineAnalyzer.outline_condition p = true →
          OutlineAnalyzer.outline_record p ∈ OutlineAnalyzer.identify_outline_posts posts))) ∧
    (∀ (posts : List JPost) (q : AIFeedbackCollector.FeedbackPost),
      q ∈ AIFeedbackCollector.collect_ai_feedback_posts posts →
      ∃ p ∈ posts, p.parent ≠ some (JVal.jstr "0") ∧
        (AIFeedbackCollector.is_ai_feedback p).is_feedback = true ∧
        q = AIFeedbackCollector.feedback_record p) ∧
    (∀ (posts : List JPost) (q : OutlineAnalyzer.OutlineRec),
      q ∈ OutlineAnalyzer.identify_outline_posts posts →
      ∃ p ∈ posts, p.parent ≠ some (JVal.jstr "0") ∧
        OutlineAnalyzer.outline_condition p = true ∧
        q = OutlineAnalyzer.outline_record p) := by
  refine ⟨?_, ?_, ?_⟩
  · intro posts p hp hpar
    constructor
    · intro hfb
      refine List.mem_filterMap.mpr ⟨p, hp, ?_⟩
      simp [AIFeedbackCollector.collect_ai_feedback_posts, hpar, hfb]
    · intro hcond
      refine List.mem_filterMap.mpr ⟨p, hp, ?_⟩
      simp [OutlineAnalyzer.identify_outline_posts, hpar, hcond]
  · intro posts q hq
    rcases List.mem_filterMap.mp hq with ⟨p, hp, hf⟩
    by_cases hpar : p.parent = some (JVal.jstr "0")
    · simp [hpar] at hf
    · refine ⟨p, hp, hpar, ?_⟩
      have hpar2 : (p.parent == some (JVal.jstr "0")) = false := by
        simpa using hpar
      by_cases hfb : (AIFeedbackCollector.is_ai_feedback p).is_feedback = true
      · refine ⟨hfb, ?_⟩
        simp [hpar2, hfb] at hf
        exact hf.symm
      · simp [hpar2, hfb] at hf
  · intro posts q hq
    rcases List.mem_filterMap.mp hq with ⟨p, hp, hf⟩
    by_cases hpar : p.parent = some (JVal.jstr "0")
    · simp [hpar] at hf
    · refine ⟨p, hp, hpar, ?_⟩
      have hpar2 : (p.parent == some (JVal.jstr "0")) = false := by
        simpa using hpar
      by_cases hcond : OutlineAnalyzer.outline_condition p = true
      · refine ⟨hcond, ?_⟩
        simp [hpar2, hcond] at hf
        exact hf.symm
      · simp [hpar2, hcond] at hf

/-- C10 witness: two posts with integer-0 `parent` are processed: one ends up
in the collected feedback posts, the other in the identified outlines. -/
theorem C10_root_sentinel_witness :
    c10FbPost.parent = some (JVal.jint 0) ∧
    c10OutPost.parent = some (JVal.jint 0) ∧
    AIFeedbackCollector.feedback_record c10FbPost ∈
      AIFeedbackCollector.collect_ai_feedback_posts [c10FbPost, c10OutPost] ∧
    OutlineAnalyzer.outline_record c10OutPost ∈
      OutlineAnalyzer.identify_outline_posts [c10FbPost, c10OutPost] :=
  ⟨rfl, rfl,
    (C10_root_sentinel.1 [c10FbPost, c10OutPost] c10FbPost (by simp) rfl).1 (by decide),
    (C10_root_sentinel.1 [c10FbPost, c10OutPost] c10OutPost (by simp) rfl).2 (by decide)⟩

/-! ## C9: candidate isolation -/

/-- C9: the per-candidate loop produces exactly one feedback entry per
candidate, each entry is determined by its own candidate alone, and a
candidate whose generation call raises is recorded as a per-candidate error
object carrying the student reference, post id and error string, without
aborting the batch or disturbing other candidates' entries. -/
theorem C9_candidate_isolation (svc : OutlineFeedbackProcessor.Outline → Except String String)
    (parse : String → Option OutlineFeedbackProcessor.ParsedFb)
    (outlines : List OutlineFeedbackProcessor.Outline) :
    (OutlineFeedbackProcessor.individual_feedbacks svc parse outlines).length =
      outlines.length ∧
    (∀ i (h : i < outlines.length)
        (h2 : i < (OutlineFeedbackProcessor.individual_feedbacks svc parse outlines).length),
      (OutlineFeedbackProcessor.individual_feedbacks svc parse outlines).get ⟨i, h2⟩ =
        OutlineFeedbackProcessor.generate_outline_feedback svc parse (outlines.get ⟨i, h⟩)) ∧
    (∀ i (h : i < outlines.length)
        (h2 : i < (OutlineFeedbackProcessor.individual_feedbacks svc parse outlines).length)
        (e : String),
      svc (outlines.get ⟨i, h⟩) = .error e →
      ((OutlineFeedbackProcessor.individual_feedbacks svc parse outlines).get ⟨i, h2⟩).error =
          some e ∧
      ((OutlineFeedbackProcessor.individual_feedbacks svc parse outlines).get
          ⟨i, h2⟩).student_name = (outlines.get ⟨i, h⟩).student_name ∧
      ((OutlineFeedbackProcessor.individual_feedbacks svc parse outlines).get ⟨i, h2⟩).post_id =
        (outlines.get ⟨i, h⟩).post_id) := by
  have hlen : (OutlineFeedbackProcessor.individual_feedbacks svc parse outlines).length =
      outlines.length := by
    simp [OutlineFeedbackProcessor.individual_feedbacks]
  have hget : ∀ i (h : i < outlines.length)
      (h2 : i < (OutlineFeedbackProcessor.individual_feedbacks svc parse outlines).length),
      (OutlineFeedbackProcessor.individual_feedbacks svc parse outlines).get ⟨i, h2⟩ =
        OutlineFeedbackProcessor.generate_outline_feedback svc parse (outlines.get ⟨i, h⟩) := by
    intro i h h2
    simp [OutlineFeedbackProcessor.individual_feedbacks]
  refine ⟨hlen, hget, ?_⟩
  intro i h h2 e hsvc
  have hsvc2 : svc outlines[i] = Except.error e := by
    simpa [List.get_eq_getElem] using hsvc
  rw [hget i h h2]
  simp [OutlineFeedbackProcessor.generate_outline_feedback, hsvc2]

/-- C9 witness: with a generation collaborator that raises on every
candidate, the single candidate's entry is its error record. -/
theorem C9_candidate_isolation_witness :
    ofpErrSvc ofpOutline = .error "connection timed out" ∧
    (OutlineFeedbackProcessor.individual_feedbacks ofpErrSvc ofpNoParse [ofpOutline]).length = 1 ∧
    ((OutlineFeedbackProcessor.individual_feedbacks ofpErrSvc ofpNoParse [ofpOutline]).get
        ⟨0, by decide⟩).error = some "connection timed out" :=
  ⟨rfl, (C9_candidate_isolation ofpErrSvc ofpNoParse [ofpOutline]).1,
    ((C9_candidate_isolation ofpErrSvc ofpNoParse [ofpOutline]).2.2 0 (by decide) (by decide)
      "connection timed out" rfl).1⟩

/-! ## C2: fallback safety (corrected) -/

/-- C2 counterexample: for a candidate whose generation response is non-JSON
prose, the stored fallback record has `parsing_error` set and the raw text as
`raw_feedback`, yet the collation filter of `generate_aggregate_analysis`
drops it (it lacks `areas_for_improvement`), so a batch consisting of that
fallback alone returns the `"No valid feedbacks to analyze"` error instead of
reaching synthesis with the fallback included. -/
theorem C2_fallback_counterexample :
    (OutlineFeedbackProcessor.generate_outline_feedback ofpOkSvc ofpNoParse
        ofpOutline).parsing_error = some "Could not parse JSON response" ∧
    (OutlineFeedbackProcessor.generate_outline_feedback ofpOkSvc ofpNoParse
        ofpOutline).raw_feedback = some "Here is some feedback in plain prose." ∧
    "Here is some feedback in plain prose." ≠ "" ∧
    OutlineFeedbackProcessor.valid_feedbacks
        [OutlineFeedbackProcessor.generate_outline_feedback ofpOkSvc ofpNoParse ofpOutline] =
      [] ∧
    OutlineFeedbackProcessor.generate_aggregate_analysis
        [OutlineFeedbackProcessor.generate_outline_feedback ofpOkSvc ofpNoParse ofpOutline] =
      .noValid := by
  refine ⟨by decide, by decide, by decide, by decide, by decide⟩

/-- C2 (amended): for every candidate for which the generation service
returns text that is not parseable JSON, the orchestrator stores a fallback
record with `parsing_error` set and `raw_feedback` equal to the raw generated
text; the candidate's result is not discarded (it is that candidate's entry
in `individual_feedbacks`); but the fallback record lacks
`areas_for_improvement` and is therefore excluded from the collection collated
by `generate_aggregate_analysis`, which collates exactly the records having
`areas_for_improvement` and no `error`; the batch reaches the
Synthesizing-Aggregate stage only when at least one candidate's result was
structurally parsed. -/
theorem C2_fallback_safety (svc : OutlineFeedbackProcessor.Outline → Except String String)
    (parse : String → Option OutlineFeedbackProcessor.ParsedFb)
    (outlines : List OutlineFeedbackProcessor.Outline)
    (i : ℕ) (h : i < outlines.length) (response : String)
    (hok : svc (outlines.get ⟨i, h⟩) = .ok response)
    (hparse : parse response = none) :
    (∀ h2 : i < (OutlineFeedbackProcessor.individual_feedbacks svc parse outlines).length,
      (OutlineFeedbackProcessor.individual_feedbacks svc parse outlines).get ⟨i, h2⟩ =
        OutlineFeedbackProcessor.generate_outline_feedback svc parse (outlines.get ⟨i, h⟩)) ∧
    (OutlineFeedbackProcessor.generate_outline_feedback svc parse
        (outlines.get ⟨i, h⟩)).parsing_error = some "Could not parse JSON response" ∧
    (OutlineFeedbackProcessor.generate_outline_feedback svc parse
        (outlines.get ⟨i, h⟩)).raw_feedback = some response ∧
    (OutlineFeedbackProcessor.generate_outline_feedback svc parse
        (outlines.get ⟨i, h⟩)).error = none ∧
    (OutlineFeedbackProcessor.generate_outline_feedback svc parse
        (outlines.get ⟨i, h⟩)).areas_for_improvement = none ∧
    (∀ fbs : List OutlineFeedbackProcessor.FeedbackRec,
      OutlineFeedbackProcessor.generate_outline_feedback svc parse (outlines.get ⟨i, h⟩) ∉
        OutlineFeedbackProcessor.valid_feedbacks fbs) ∧
    (∀ fbs : List OutlineFeedbackProcessor.FeedbackRec,
      OutlineFeedbackProcessor.valid_feedbacks fbs ≠ [] →
      OutlineFeedbackProcessor.generate_aggregate_analysis fbs =
        .synthesized (OutlineFeedbackProcessor.valid_feedbacks fbs)) := by
  have hfb : OutlineFeedbackProcessor.generate_outline_feedback svc parse (outlines.get ⟨i, h⟩) =
      { overall_score := some "N/A", strengths := none, areas_for_improvement := none
        thesis_feedback := none, structure_feedback := none, evidence_feedback := none
        suggestions := none, comparison_to_sample := none
        raw_feedback := some response
        parsing_error := some "Could not parse JSON response"
        error := none
        student_name := (outlines.get ⟨i, h⟩).student_name
        post_id := (outlines.get ⟨i, h⟩).post_id } := by
    have hok2 : svc outlines[i] = Except.ok response := by
      simpa [List.get_eq_getElem] using hok
    simp [OutlineFeedbackProcessor.generate_outline_feedback, hok2, hparse]
  refine ⟨?_, ?_, ?_, ?_, ?_, ?_, ?_⟩
  · intro h2
    simp [OutlineFeedbackProcessor.individual_feedbacks]
  · rw [hfb]
  · rw [hfb]
  · rw [hfb]
  · rw [hfb]
  · intro fbs hmem
    have := (List.mem_filter.mp hmem).2
    rw [hfb] at this
    simp at this
  · intro fbs hne
    simp only [OutlineFeedbackProcessor.generate_aggregate_analysis]
    rw [if_neg (by simpa [List.isEmpty_iff] using hne)]

/-- C2 witness: the amended statement instantiated at a one-candidate batch
whose generation response is fixed non-JSON prose. -/
theorem C2_fallback_safety_witness :
    ofpOkSvc ([ofpOutline].get ⟨0, by decide⟩) =
      .ok "Here is some feedback in plain prose." ∧
    ofpNoParse "Here is some feedback in plain prose." = none ∧
    (OutlineFeedbackProcessor.generate_outline_feedback ofpOkSvc ofpNoParse
        ([ofpOutline].get ⟨0, by decide⟩)).raw_feedback =
      some "Here is some feedback in plain prose." :=
  ⟨rfl, rfl,
    (C2_fallback_safety ofpOkSvc ofpNoParse [ofpOutline] 0 (by decide)
      "Here is some feedback in plain prose." rfl rfl).2.2.1⟩

/-! ## C4: sanitizer idempotence (corrected) -/

namespace Py

theorem stripTagsAux_none_of_no_lt (l : List Char) (h : ∀ c ∈ l, c ≠ '<') :
    stripTagsAux none l = l := by
  induction l with
  | nil => rfl
  | cons c rest ih =>
    have hc : (c == '<') = false := by
      simpa using h c (List.mem_cons_self c rest)
    simp [stripTagsAux, hc, ih (fun x hx => h x (List.mem_cons_of_mem _ hx))]

theorem replaceAllAux_zero_of_head_notin (pat rep l : List Char) (p0 : Char)
    (hp : pat.head? = some p0) (h : ∀ c ∈ l, c ≠ p0) :
    replaceAllAux pat rep 0 l = l := by
  induction l with
  | nil => rfl
  | cons c rest ih =>
    have hpre : isPre pat (c :: rest) = false := by
      cases pat with
      | nil => simp at hp
      | cons a as =>
        have ha : a = p0 := by simpa using hp
        subst ha
        have hca : (a == c) = false := by
          have := h c (List.mem_cons_self c rest)
          simp [beq_eq_false_iff_ne]
          exact fun he => this he.symm
        simp [isPre, hca]
    simp [replaceAllAux, hpre, ih (fun x hx => h x (List.mem_cons_of_mem _ hx))]

theorem collapseAux_onlySp (l : List Char) :
    ∀ b, ∀ c ∈ collapseAux b l, isPySpace c = true → c = ' ' := by
  induction l with
  | nil => intro b c hc; simp [collapseAux] at hc
  | cons d rest ih =>
    intro b c hc hsp
    by_cases hd : isPySpace d = true
    · cases b with
      | true =>
        simp only [collapseAux, hd, if_true] at hc
        exact ih true c hc hsp
      | false =>
        simp only [collapseAux, hd, if_true, if_false, Bool.false_eq_true,
          List.mem_cons] at hc
        rcases hc with rfl | hc
        · rfl
        · exact ih true c hc hsp
    · simp only [collapseAux, hd, Bool.false_eq_true, if_false, List.mem_cons] at hc
      rcases hc with rfl | hc
      · exact absurd hsp hd
      · exact ih false c hc hsp

theorem collapseAux_true_head (l : List Char) :
    ∀ c, (collapseAux true l).head? = some c → isPySpace c = false := by
  induction l with
  | nil => intro c hc; simp [collapseAux] at hc
  | cons d rest ih =>
    intro c hc
    by_cases hd : isPySpace d = true
    · simp only [collapseAux, hd, if_true] at hc
      exact ih c hc
    · simp only [collapseAux, hd, Bool.false_eq_true, if_false, List.head?_cons,
        Option.some.injEq] at hc
      subst hc
      simpa using hd

theorem collapseAux_chain (l : List Char) :
    ∀ b, List.Chain' (fun a c => isPySpace a = true → isPySpace c = false)
      (collapseAux b l) := by
  induction l with
  | nil => intro b; simp [collapseAux]
  | cons d rest ih =>
    intro b
    by_cases hd : isPySpace d = true
    · cases b with
      | true => simpa [collapseAux, hd] using ih true
      | false =>
        simp only [collapseAux, hd, if_true, Bool.false_eq_true, if_false]
        rw [List.chain'_cons']
        exact ⟨fun y hy _ => collapseAux_true_head rest y hy, ih true⟩
    · simp only [collapseAux, hd, Bool.false_eq_true, if_false]
      rw [List.chain'_cons']
      exact ⟨fun y _ hsp => absurd hsp hd, ih false⟩

theorem head_dropWhile_not (p : Char → Bool) (l : List Char) :
    ∀ c, (l.dropWhile p).head? = some c → p c = false := by
  induction l with
  | nil => intro c hc; simp at hc
  | cons d rest ih =>
    intro c hc
    by_cases hd : p d = true
    · rw [List.dropWhile_cons, if_pos hd] at hc
      exact ih c hc
    · rw [List.dropWhile_cons, if_neg hd] at hc
      simp only [List.head?_cons, Option.some.injEq] at hc
      subst hc
      simpa using hd

theorem dropWhile_suffix_my (p : Char → Bool) (l : List Char) : l.dropWhile p <:+ l := by
  induction l with
  | nil => exact ⟨[], rfl⟩
  | cons d rest ih =>
    by_cases hd : p d = true
    · rw [List.dropWhile_cons, if_pos hd]
      exact ih.trans ⟨[d], rfl⟩
    · rw [List.dropWhile_cons, if_neg hd]

theorem dropTrail_pref (p : Char → Bool) (l : List Char) : dropTrail p l <+: l := by
  rcases dropWhile_suffix_my p l.reverse with ⟨t, ht⟩
  refine ⟨t.reverse, ?_⟩
  have := congrArg List.reverse ht
  simpa [dropTrail, List.reverse_append] using this

theorem mem_pyStripL (l : List Char) (c : Char) (h : c ∈ pyStripL l) : c ∈ l := by
  have h1 : c ∈ l.dropWhile isPySpace :=
    (dropTrail_pref isPySpace (l.dropWhile isPySpace)).sublist.subset h
  exact (dropWhile_suffix_my isPySpace l).sublist.subset h1

theorem head?_of_pref {l' l : List Char} (h : l' <+: l) (c : Char)
    (hc : l'.head? = some c) : l.head? = some c := by
  rcases h with ⟨t, rfl⟩
  cases l' with
  | nil => simp at hc
  | cons a as => simpa using hc

theorem pyStripL_head (l : List Char) :
    ∀ c, (pyStripL l).head? = some c → isPySpace c = false := by
  intro c hc
  exact head_dropWhile_not isPySpace l c
    (head?_of_pref (dropTrail_pref isPySpace (l.dropWhile isPySpace)) c hc)

theorem pyStripL_getLast (l : List Char) :
    ∀ c, (pyStripL l).getLast? = some c → isPySpace c = false := by
  intro c hc
  have : ((l.dropWhile isPySpace).reverse.dropWhile isPySpace).head? = some c := by
    simpa [pyStripL, dropTrail, List.getLast?_reverse] using hc
  exact head_dropWhile_not isPySpace _ c this

theorem pyStripL_chain (l : List Char)
    (h : List.Chain' (fun a c => isPySpace a = true → isPySpace c = false) l) :
    List.Chain' (fun a c => isPySpace a = true → isPySpace c = false) (pyStripL l) := by
  have h1 := h.suffix (dropWhile_suffix_my isPySpace l)
  exact h1.prefix (dropTrail_pref isPySpace (l.dropWhile isPySpace))

theorem collapseAux_id (l : List Char) :
    ∀ b, (∀ c ∈ l, isPySpace c = true → c = ' ') →
    List.Chain' (fun a c => isPySpace a = true → isPySpace c = false) l →
    (b = true → ∀ c, l.head? = some c → isPySpace c = false) →
    collapseAux b l = l := by
  induction l with
  | nil => intro b _ _ _; rfl
  | cons d rest ih =>
    intro b honly hchain hhead
    rcases List.chain'_cons'.mp hchain with ⟨hR, hchain2⟩
    by_cases hd : isPySpace d = true
    · have hb : b = false := by
        cases b with
        | false => rfl
        | true =>
          have := hhead rfl d (by simp)
          exact absurd hd (by simp [this])
      subst hb
      have hd' : d = ' ' := honly d (List.mem_cons_self d rest) hd
      simp only [collapseAux, hd, if_true, Bool.false_eq_true, if_false]
      rw [ih true (fun c hc => honly c (List.mem_cons_of_mem _ hc)) hchain2
        (fun _ c hc => hR c hc hd)]
      rw [hd']
    · simp only [collapseAux, hd, Bool.false_eq_true, if_false]
      rw [ih false (fun c hc => honly c (List.mem_cons_of_mem _ hc)) hchain2
        (by intro hcon; exact absurd hcon (by simp))]

theorem pyStripL_id (l : List Char)
    (hh : ∀ c, l.head? = some c → isPySpace c = false)
    (hl : ∀ c, l.getLast? = some c → isPySpace c = false) :
    pyStripL l = l := by
  have h1 : l.dropWhile isPySpace = l := by
    cases l with
    | nil => rfl
    | cons a as =>
      rw [List.dropWhile_cons, if_neg (by simp [hh a (by simp)])]
  have h2 : l.reverse.dropWhile isPySpace = l.reverse := by
    cases hrev : l.reverse with
    | nil => rfl
    | cons a as =>
      have ha : l.getLast? = some a := by
        rw [← List.head?_reverse, hrev]; rfl
      rw [List.dropWhile_cons, if_neg (by simp [hl a ha])]
  rw [pyStripL, h1, dropTrail, h2, List.reverse_reverse]

end Py

/-- C4 counterexample: `clean_text` is not idempotent: one pass decodes
`"&lt;b&gt;"` to `"<b>"` and a second pass strips the freshly exposed tag. -/
theorem C4_clean_text_counterexample :
    AIFeedbackCollector.clean_text (AIFeedbackCollector.clean_text "&lt;b&gt;") ≠
      AIFeedbackCollector.clean_text "&lt;b&gt;" ∧
    OutlineAnalyzer.clean_text (OutlineAnalyzer.clean_text "&lt;b&gt;") ≠
      OutlineAnalyzer.clean_text "&lt;b&gt;" :=
  ⟨by decide, by decide⟩

/-- C4 (amended): `clean_text` is idempotent on every input whose cleaned
output contains neither `<` nor `&` — i.e. on already-sanitized plain text
with no residual tag or entity material (entity decoding can otherwise expose
new markup, as in the counterexample); both modules' copies are covered. -/
theorem C4_sanitizer_idempotence (s : String)
    (h1 : ∀ c ∈ (AIFeedbackCollector.clean_text s).data, c ≠ '<')
    (h2 : ∀ c ∈ (AIFeedbackCollector.clean_text s).data, c ≠ '&') :
    AIFeedbackCollector.clean_text (AIFeedbackCollector.clean_text s) =
      AIFeedbackCollector.clean_text s ∧
    OutlineAnalyzer.clean_text (OutlineAnalyzer.clean_text s) =
      OutlineAnalyzer.clean_text s := by
  have key : Py.cleanText (Py.cleanText s) = Py.cleanText s := by
    by_cases hs : s = ""
    · subst hs; rfl
    by_cases hu0 : Py.cleanText s = ""
    · rw [hu0]; decide
    have h1' : ∀ c ∈ (Py.cleanText s).data, c ≠ '<' := h1
    have h2' : ∀ c ∈ (Py.cleanText s).data, c ≠ '&' := h2
    have hdata : (Py.cleanText s).data =
        Py.pyStripL (Py.collapseWs (Py.replaceAll "&gt;".data ">".data
          (Py.replaceAll "&lt;".data "<".data (Py.replaceAll "&amp;".data "&".data
            (Py.replaceAll "&nbsp;".data " ".data (Py.stripTags s.data)))))) := by
      rw [Py.cleanText, if_neg hs]
      rfl
    have honly : ∀ c ∈ (Py.cleanText s).data, Py.isPySpace c = true → c = ' ' := by
      intro c hc hsp
      rw [hdata] at hc
      exact Py.collapseAux_onlySp _ false c (Py.mem_pyStripL _ c hc) hsp
    have hchain : List.Chain'
        (fun a c => Py.isPySpace a = true → Py.isPySpace c = false)
        (Py.cleanText s).data := by
      rw [hdata]
      exact Py.pyStripL_chain _ (Py.collapseAux_chain _ false)
    have hhead : ∀ c, (Py.cleanText s).data.head? = some c → Py.isPySpace c = false := by
      intro c hc
      rw [hdata] at hc
      exact Py.pyStripL_head _ c hc
    have hlast : ∀ c, (Py.cleanText s).data.getLast? = some c → Py.isPySpace c = false := by
      intro c hc
      rw [hdata] at hc
      exact Py.pyStripL_getLast _ c hc
    have hstrip : Py.stripTags (Py.cleanText s).data = (Py.cleanText s).data :=
      Py.stripTagsAux_none_of_no_lt _ h1'
    have hra1 : Py.replaceAll "&nbsp;".data " ".data (Py.cleanText s).data =
        (Py.cleanText s).data :=
      Py.replaceAllAux_zero_of_head_notin _ _ _ '&' rfl h2'
    have hra2 : Py.replaceAll "&amp;".data "&".data (Py.cleanText s).data =
        (Py.cleanText s).data :=
      Py.replaceAllAux_zero_of_head_notin _ _ _ '&' rfl h2'
    have hra3 : Py.replaceAll "&lt;".data "<".data (Py.cleanText s).data =
        (Py.cleanText s).data :=
      Py.replaceAllAux_zero_of_head_notin _ _ _ '&' rfl h2'
    have hra4 : Py.replaceAll "&gt;".data ">".data (Py.cleanText s).data =
        (Py.cleanText s).data :=
      Py.replaceAllAux_zero_of_head_notin _ _ _ '&' rfl h2'
    have hcol : Py.collapseWs (Py.cleanText s).data = (Py.cleanText s).data :=
      Py.collapseAux_id _ false honly hchain (by intro hcon; exact absurd hcon (by simp))
    have hstr : Py.pyStripL (Py.cleanText s).data = (Py.cleanText s).data :=
      Py.pyStripL_id _ hhead hlast
    rw [Py.cleanText, if_neg hu0, Py.cleanTextL, hstrip, hra1, hra2, hra3, hra4, hcol, hstr]
  exact ⟨key, key⟩

/-- C4 witness: `"hello  world"` cleans to `"hello world"`, which contains no
markup characters, and a second pass is the identity on it. -/
theorem C4_sanitizer_idempotence_witness :
    (∀ c ∈ (AIFeedbackCollector.clean_text "hello  world").data, c ≠ '<') ∧
    (∀ c ∈ (AIFeedbackCollector.clean_text "hello  world").data, c ≠ '&') ∧
    AIFeedbackCollector.clean_text (AIFeedbackCollector.clean_text "hello  world") =
      AIFeedbackCollector.clean_text "hello  world" :=
  ⟨by decide, by decide,
    (C4_sanitizer_idempotence "hello  world" (by decide) (by decide)).1⟩

/-! ## C3: aggregation conservation (corrected) -/

namespace OutlineAnalyzer

theorem aggFold_fst (l : List OutlineRec) :
    ∀ (f : String → List OutlineRec) (g : String → Nat) (sec : String),
      (l.foldl aggStep (f, g)).1 sec =
        f sec ++ l.filter (fun o => o.sectionLabel == sec) := by
  induction l with
  | nil => intro f g sec; simp
  | cons o t ih =>
    intro f g sec
    simp only [List.foldl_cons, aggStep, List.filter_cons]
    rw [ih]
    by_cases h : o.sectionLabel = sec
    · simp [Function.update, h]
    · simp [Function.update, h, Ne.symm h]

theorem aggFold_snd (l : List OutlineRec) :
    ∀ (f : String → List OutlineRec) (g : String → Nat) (sec : String),
      (l.foldl aggStep (f, g)).2 sec =
        g sec + ((l.filter (fun o => o.sectionLabel == sec)).map (·.word_count)).sum := by
  induction l with
  | nil => intro f g sec; simp
  | cons o t ih =>
    intro f g sec
    simp only [List.foldl_cons, aggStep, List.filter_cons]
    rw [ih]
    by_cases h : o.sectionLabel = sec
    · simp [Function.update, h, Nat.add_assoc]
    · simp [Function.update, h, Ne.symm h]

end OutlineAnalyzer

/-- C3 counterexample: two outline posts by the same author in section `X`
(word counts 10 and 20).  The aggregator's participant figure counts posts
(2), not distinct author references (1), and its average divides by the post
count (15.0), not by the distinct-participant count (30.0). -/
theorem C3_aggregation_counterexample :
    (OutlineAnalyzer.section_stats [c3o1, c3o2] "X").total_words = 30 ∧
    (OutlineAnalyzer.section_stats [c3o1, c3o2] "X").student_count = 2 ∧
    OutlineAnalyzer.specDistinctAuthors [c3o1, c3o2] "X" = 1 ∧
    (OutlineAnalyzer.section_stats [c3o1, c3o2] "X").student_count ≠
      OutlineAnalyzer.specDistinctAuthors [c3o1, c3o2] "X" ∧
    (OutlineAnalyzer.section_stats [c3o1, c3o2] "X").average_words ≠
      Py.pyRound1 (((OutlineAnalyzer.section_stats [c3o1, c3o2] "X").total_words : ℚ) /
        (OutlineAnalyzer.specDistinctAuthors [c3o1, c3o2] "X" : ℚ)) := by
  refine ⟨by decide, by decide, by decide, by decide, ?_⟩
  have ha : (OutlineAnalyzer.section_stats [c3o1, c3o2] "X").average_words = 15 := by
    norm_num [OutlineAnalyzer.section_stats, OutlineAnalyzer.aggFold, OutlineAnalyzer.aggStep,
      Py.pyRound1, Py.roundHalfEven, Function.update, c3o1, c3o2]
  have hb : ((OutlineAnalyzer.section_stats [c3o1, c3o2] "X").total_words : ℚ) = 30 := by
    norm_num [OutlineAnalyzer.section_stats, OutlineAnalyzer.aggFold, OutlineAnalyzer.aggStep,
      Function.update, c3o1, c3o2]
  have hc : (OutlineAnalyzer.specDistinctAuthors [c3o1, c3o2] "X" : ℚ) = 1 := by
    norm_num [OutlineAnalyzer.specDistinctAuthors, OutlineAnalyzer.sectionGroup, c3o1, c3o2]
  rw [ha, hb, hc]
  have hd : Py.pyRound1 ((30 : ℚ) / 1) = 30 := by
    norm_num [Py.pyRound1, Py.roundHalfEven]
  rw [hd]
  norm_num

/-- C3 (amended): for every input and every section group produced by the
aggregator, `total_words` equals the sum of the word counts of that
section's posts, the reported participant figure (`student_count`) equals the
number of posts in the group — one entry per post, duplicate authors counted
once per post, not the number of distinct author references — and
`average_words` equals `round(total_words / student_count, 1)` computed over
that post count. -/
theorem C3_aggregation_conservation (l : List OutlineAnalyzer.OutlineRec) (sec : String)
    (hne : OutlineAnalyzer.sectionGroup l sec ≠ []) :
    (OutlineAnalyzer.section_stats l sec).total_words =
      ((OutlineAnalyzer.sectionGroup l sec).map (·.word_count)).sum ∧
    (OutlineAnalyzer.section_stats l sec).student_count =
      (OutlineAnalyzer.sectionGroup l sec).length ∧
    (OutlineAnalyzer.section_stats l sec).average_words =
      Py.pyRound1 ((((OutlineAnalyzer.sectionGroup l sec).map (·.word_count)).sum : ℚ) /
        ((OutlineAnalyzer.sectionGroup l sec).length : ℚ)) ∧
    (OutlineAnalyzer.section_stats l sec).students =
      (OutlineAnalyzer.sectionGroup l sec).map (fun o => (o.userfullname, o.word_count, o.subject)) := by
  have hf : (OutlineAnalyzer.aggFold l).1 sec = OutlineAnalyzer.sectionGroup l sec := by
    simpa [OutlineAnalyzer.sectionGroup] using
      OutlineAnalyzer.aggFold_fst l (fun _ => []) (fun _ => 0) sec
  have hg : (OutlineAnalyzer.aggFold l).2 sec =
      ((OutlineAnalyzer.sectionGroup l sec).map (·.word_count)).sum := by
    simpa [OutlineAnalyzer.sectionGroup] using
      OutlineAnalyzer.aggFold_snd l (fun _ => []) (fun _ => 0) sec
  refine ⟨?_, ?_, ?_, ?_⟩
  · simp [OutlineAnalyzer.section_stats, hg]
  · simp [OutlineAnalyzer.section_stats, hf]
  · simp only [OutlineAnalyzer.section_stats]
    rw [hf, hg]
    simp [Nat.cast_list_sum, List.map_map, Function.comp_def]
  · simp [OutlineAnalyzer.section_stats, hf]

/-- C3 witness: the amended statement instantiated at the two-post section
`X` (the group is non-empty and the totals agree). -/
theorem C3_aggregation_conservation_witness :
    OutlineAnalyzer.sectionGroup [c3o1, c3o2] "X" ≠ [] ∧
    (OutlineAnalyzer.section_stats [c3o1, c3o2] "X").total_words =
      ((OutlineAnalyzer.sectionGroup [c3o1, c3o2] "X").map (·.word_count)).sum ∧
    (OutlineAnalyzer.section_stats [c3o1, c3o2] "X").student_count =
      (OutlineAnalyzer.sectionGroup [c3o1, c3o2] "X").length :=
  ⟨by decide, (C3_aggregation_conservation [c3o1, c3o2] "X" (by decide)).1,
    (C3_aggregation_conservation [c3o1, c3o2] "X" (by decide)).2.1⟩

/-! ## Thread-builder fold lemmas (used by C8 and C1) -/

namespace DiscussionProcessor

theorem threadFold_roots_subset (ids : List Int) (l : List SanPost) :
    ∀ (st : ThreadState) (x : Int),
      x ∈ (l.foldl (threadStep ids) st).1 → x ∈ st.1 ∨ x ∈ l.map (·.id) := by
  induction l with
  | nil => intro st x hx; exact Or.inl hx
  | cons p t ih =>
    intro st x hx
    rw [List.foldl_cons] at hx
    rcases ih (threadStep ids st p) x hx with h | h
    · unfold threadStep at h
      split_ifs at h
      · rcases List.mem_append.mp h with h | h
        · exact Or.inl h
        · simp only [List.mem_singleton] at h
          exact Or.inr (by simp [h])
      · exact Or.inl h
      · exact Or.inl h
    · exact Or.inr (by simp [List.mem_cons]; exact Or.inr (by simpa using h))

theorem threadFold_rep_subset (ids : List Int) (l : List SanPost) :
    ∀ (st : ThreadState) (n x : Int),
      x ∈ (l.foldl (threadStep ids) st).2 n → x ∈ st.2 n ∨ x ∈ l.map (·.id) := by
  induction l with
  | nil => intro st n x hx; exact Or.inl hx
  | cons p t ih =>
    intro st n x hx
    rw [List.foldl_cons] at hx
    rcases ih (threadStep ids st p) n x hx with h | h
    · unfold threadStep at h
      split_ifs at h
      · simp only [Function.update_apply] at h
        by_cases hn : n = p.id
        · simp [hn] at h
        · rw [if_neg hn] at h
          exact Or.inl h
      · simp only [Function.update_apply] at h
        by_cases hn : n = p.parent
        · rw [if_pos hn] at h
          rcases List.mem_append.mp h with h | h
          · rw [hn]; exact Or.inl h
          · simp only [List.mem_singleton] at h
            exact Or.inr (by simp [h])
        · rw [if_neg hn] at h
          exact Or.inl h
      · exact Or.inl h
    · exact Or.inr (by simp [List.mem_cons]; exact Or.inr (by simpa using h))

theorem threadFold_roots_mono (ids : List Int) (l : List SanPost) :
    ∀ (st : ThreadState) (x : Int), x ∈ st.1 → x ∈ (l.foldl (threadStep ids) st).1 := by
  induction l with
  | nil => intro st x hx; exact hx
  | cons p t ih =>
    intro st x hx
    rw [List.foldl_cons]
    refine ih (threadStep ids st p) x ?_
    unfold threadStep
    split_ifs
    · exact List.mem_append_left _ hx
    · exact hx
    · exact hx

theorem threadFold_root_mem (ids : List Int) (l : List SanPost) :
    ∀ (st : ThreadState) (p : SanPost), p ∈ l → p.parent = 0 →
      p.id ∈ (l.foldl (threadStep ids) st).1 := by
  induction l with
  | nil => intro st p hp; exact absurd hp (List.not_mem_nil p)
  | cons q t ih =>
    intro st p hp hp0
    rw [List.foldl_cons]
    rcases List.mem_cons.mp hp with rfl | hp
    · refine threadFold_roots_mono ids t (threadStep ids st p) p.id ?_
      unfold threadStep
      rw [if_pos hp0]
      exact List.mem_append_right _ (by simp)
    · exact ih (threadStep ids st q) p hp hp0

theorem threadFold_rep_persist (ids : List Int) (l : List SanPost) :
    ∀ (st : ThreadState) (n x : Int), x ∈ st.2 n →
      (∀ r ∈ l, ¬(r.parent = 0 ∧ r.id = n)) →
      x ∈ (l.foldl (threadStep ids) st).2 n := by
  induction l with
  | nil => intro st n x hx _; exact hx
  | cons q t ih =>
    intro st n x hx hno
    rw [List.foldl_cons]
    refine ih (threadStep ids st q) n x ?_
      (fun r hr => hno r (List.mem_cons_of_mem _ hr))
    unfold threadStep
    split_ifs with h1 h2
    · have hqn : q.id ≠ n := fun he => hno q (List.mem_cons_self q t) ⟨h1, he⟩
      simpa [Function.update_apply, Ne.symm hqn] using hx
    · simp only [Function.update_apply]
      by_cases hn : n = q.parent
      · rw [if_pos hn]
        rw [hn] at hx
        exact List.mem_append_left _ hx
      · rwa [if_neg hn]
    · exact hx

theorem threadFold_attach (ids : List Int) (st : ThreadState)
    (pre suf : List SanPost) (p : SanPost)
    (hp0 : ¬ p.parent = 0) (hpin : p.parent ∈ ids)
    (hno : ∀ r ∈ suf, ¬(r.parent = 0 ∧ r.id = p.parent)) :
    p.id ∈ (((pre ++ p :: suf).foldl (threadStep ids) st).2 p.parent) := by
  rw [List.foldl_append, List.foldl_cons]
  refine threadFold_rep_persist ids suf _ p.parent p.id ?_ hno
  unfold threadStep
  rw [if_neg hp0, if_pos hpin]
  simp [Function.update_apply]

end DiscussionProcessor

/-! ## C8: content filter -/

/-- C8: a sanitized post appears in the returned content-post list iff its
plain-text body is longer than 15 characters and its lower-cased trimmed text
is not one of the trivial tokens `{"1","test","ok","yes","no"}`; a post
failing this is omitted and the downstream structures (thread map roots,
reply lists, student contributions) only ever hold content posts. -/
theorem C8_content_filter (getText : String → String)
    (raws : List DiscussionProcessor.RawPost) :
    (∀ r ∈ raws, (DiscussionProcessor.sanitize_post getText r).has_content = true →
      DiscussionProcessor.sanitize_post getText r ∈
        (DiscussionProcessor.structure_discussion_data getText raws).posts) ∧
    (∀ c ∈ (DiscussionProcessor.structure_discussion_data getText raws).posts,
      c.has_content = true ∧ ∃ r ∈ raws, c = DiscussionProcessor.sanitize_post getText r) ∧
    (∀ r : DiscussionProcessor.RawPost,
      (DiscussionProcessor.sanitize_post getText r).has_content = true ↔
      (15 < (DiscussionProcessor.sanitize_post getText r).clean_message.length ∧
       Py.lowerStr (DiscussionProcessor.sanitize_post getText r).clean_message ∉
         DiscussionProcessor.trivialMsgs)) ∧
    (∀ n ∈ (DiscussionProcessor.structure_discussion_data getText raws).roots,
      n ∈ (DiscussionProcessor.structure_discussion_data getText raws).posts.map (·.id)) ∧
    (∀ m n, n ∈ (DiscussionProcessor.structure_discussion_data getText raws).rep m →
      n ∈ (DiscussionProcessor.structure_discussion_data getText raws).posts.map (·.id)) ∧
    (∀ c ∈ (DiscussionProcessor.structure_discussion_data getText raws).student_contributions,
      c ∈ (DiscussionProcessor.structure_discussion_data getText raws).posts) := by
  have hposts : (DiscussionProcessor.structure_discussion_data getText raws).posts =
      DiscussionProcessor.contentPosts getText raws := rfl
  have hroots : (DiscussionProcessor.structure_discussion_data getText raws).roots =
      (DiscussionProcessor.buildThreads (DiscussionProcessor.contentPosts getText raws)).1 := rfl
  have hrep : (DiscussionProcessor.structure_discussion_data getText raws).rep =
      (DiscussionProcessor.buildThreads (DiscussionProcessor.contentPosts getText raws)).2 := rfl
  have hsc : (DiscussionProcessor.structure_discussion_data getText raws).student_contributions =
      (DiscussionProcessor.contentPosts getText raws).filter
        (fun p => !(DiscussionProcessor.is_instructor_post p)) := rfl
  refine ⟨?_, ?_, ?_, ?_, ?_, ?_⟩
  · intro r hr hc
    rw [hposts]
    exact List.mem_filterMap.mpr ⟨r, hr, by simp [DiscussionProcessor.contentPosts, hc]⟩
  · intro c hc
    rw [hposts] at hc
    rcases List.mem_filterMap.mp hc with ⟨r, hr, hf⟩
    by_cases hcont : (DiscussionProcessor.sanitize_post getText r).has_content = true
    · simp only [hcont, if_true] at hf
      have := Option.some.inj hf
      exact ⟨this ▸ hcont, r, hr, this.symm⟩
    · simp [hcont] at hf
  · intro r
    simp only [DiscussionProcessor.sanitize_post, Bool.and_eq_true, decide_eq_true_eq,
      Bool.not_eq_true']
    constructor
    · rintro ⟨h1, h2⟩
      exact ⟨h1, by simpa using h2⟩
    · rintro ⟨h1, h2⟩
      exact ⟨h1, by simpa using h2⟩
  · intro n hn
    rw [hroots] at hn
    rw [hposts]
    rcases DiscussionProcessor.threadFold_roots_subset _ _ _ n hn with h | h
    · exact absurd h (List.not_mem_nil n)
    · exact h
  · intro m n hn
    rw [hrep] at hn
    rw [hposts]
    rcases DiscussionProcessor.threadFold_rep_subset _ _ _ m n hn with h | h
    · exact absurd h (List.not_mem_nil n)
    · exact h
  · intro c hc
    rw [hsc] at hc
    rw [hposts]
    exact (List.mem_filter.mp hc).1

/-- C8 witness: the post with body `"ok"` has `has_content = false` and is
absent from the content posts, while the long root post's sanitized record is
in the returned list. -/
theorem C8_content_filter_witness :
    (DiscussionProcessor.sanitize_post (fun x => x) c8OkRaw).has_content = false ∧
    (DiscussionProcessor.structure_discussion_data (fun x => x) [c1RootRaw, c8OkRaw]).posts =
      [DiscussionProcessor.sanitize_post (fun x => x) c1RootRaw] ∧
    DiscussionProcessor.sanitize_post (fun x => x) c1RootRaw ∈
      (DiscussionProcessor.structure_discussion_data (fun x => x) [c1RootRaw, c8OkRaw]).posts :=
  ⟨by decide, by decide,
    (C8_content_filter (fun x => x) [c1RootRaw, c8OkRaw]).1 c1RootRaw (by simp) (by decide)⟩

/-! ## C1: thread integrity (corrected) -/

/-- C1 counterexample: a single content-bearing record whose parent id 7 is
neither the sentinel 0 nor any sanitized post's id.  It does not become a
root (the builder leaves orphans unattached), so the set of reachable node
ids is empty while the content-present id set is `{1}`. -/
theorem C1_thread_integrity_counterexample :
    (DiscussionProcessor.sanitize_post (fun x => x) c1OrphanRaw).has_content = true ∧
    (DiscussionProcessor.structure_discussion_data (fun x => x) [c1OrphanRaw]).posts.map (·.id) =
      [1] ∧
    (DiscussionProcessor.structure_discussion_data (fun x => x) [c1OrphanRaw]).roots = [] ∧
    ¬ DiscussionProcessor.Reaches
        (DiscussionProcessor.structure_discussion_data (fun x => x) [c1OrphanRaw]).roots
        (DiscussionProcessor.structure_discussion_data (fun x => x) [c1OrphanRaw]).rep 1 := by
  refine ⟨by decide, by decide, by decide, ?_⟩
  have hgen : ∀ m, ¬ DiscussionProcessor.Reaches
      (DiscussionProcessor.structure_discussion_data (fun x => x) [c1OrphanRaw]).roots
      (DiscussionProcessor.structure_discussion_data (fun x => x) [c1OrphanRaw]).rep m := by
    intro m h
    induction h with
    | root hmem =>
      rw [show (DiscussionProcessor.structure_discussion_data (fun x => x) [c1OrphanRaw]).roots =
          [] from by decide] at hmem
      exact absurd hmem (List.not_mem_nil _)
    | child hr hmem ih => exact ih
  exact hgen 1

namespace DiscussionProcessor

/-- Reachability in the forest built by the hierarchy loop: when the
sanitized ids are distinct and every post's parent is the sentinel or the id
of an earlier post in scan order, the reachable node ids are exactly the
posts' ids. -/
theorem buildThreads_reaches (posts : List SanPost)
    (hnd : (posts.map (·.id)).Nodup)
    (hord : ∀ i (h : i < posts.length), (posts.get ⟨i, h⟩).parent = 0 ∨
      ∃ j, ∃ hj : j < i,
        (posts.get ⟨j, lt_trans hj h⟩).id = (posts.get ⟨i, h⟩).parent) :
    ∀ n, Reaches (buildThreads posts).1 (buildThreads posts).2 n ↔
      n ∈ posts.map (·.id) := by
  intro n
  constructor
  · intro h
    induction h with
    | root hmem =>
      rcases threadFold_roots_subset _ _ _ _ hmem with h | h
      · exact absurd h (List.not_mem_nil _)
      · exact h
    | child hr hmem ih =>
      rcases threadFold_rep_subset _ _ _ _ _ hmem with h | h
      · exact absurd h (List.not_mem_nil _)
      · exact h
  · intro hn
    rcases List.mem_map.mp hn with ⟨p, hp, hpid⟩
    rcases List.mem_iff_get.mp hp with ⟨⟨i, hi⟩, hget⟩
    have key : ∀ i (hi : i < posts.length),
        Reaches (buildThreads posts).1 (buildThreads posts).2 (posts.get ⟨i, hi⟩).id := by
      clear hpid hget hp hn hi p n i
      intro i
      induction i using Nat.strong_induction_on with
      | _ i IH =>
        intro hi
        by_cases hz : (posts.get ⟨i, hi⟩).parent = 0
        · exact Reaches.root (threadFold_root_mem _ posts _ _ (List.get_mem _ _ _) hz)
        · rcases hord i hi with hz' | ⟨j, hj, hid⟩
          · exact absurd hz' hz
          · have hreach_q : Reaches (buildThreads posts).1 (buildThreads posts).2
                (posts.get ⟨j, lt_trans hj hi⟩).id := IH j hj (lt_trans hj hi)
            have hin : (posts.get ⟨i, hi⟩).parent ∈ posts.map (·.id) := by
              rw [← hid]
              exact List.mem_map.mpr ⟨_, List.get_mem _ _ _, rfl⟩
            have hdrop : posts.drop i = posts.get ⟨i, hi⟩ :: posts.drop (i + 1) := by
              rw [List.drop_eq_getElem_cons hi]
              rfl
            have hdecomp : posts.take i ++ posts.get ⟨i, hi⟩ :: posts.drop (i + 1) = posts := by
              rw [← hdrop, List.take_append_drop]
            have hnores : ∀ r ∈ posts.drop (i + 1),
                ¬(r.parent = 0 ∧ r.id = (posts.get ⟨i, hi⟩).parent) := by
              rintro r hr ⟨_, hrid⟩
              rcases List.mem_iff_get.mp hr with ⟨⟨k, hk⟩, hkeq⟩
              have hk2 : i + 1 + k < posts.length := by
                have := hk
                simp only [List.length_drop] at this
                omega
              have hrk : posts.get ⟨i + 1 + k, hk2⟩ = r := by
                rw [← hkeq]
                simp [List.get_eq_getElem, List.getElem_drop]
              have heq : (posts.map (·.id)).get
                    ⟨i + 1 + k, by simpa using hk2⟩ =
                  (posts.map (·.id)).get ⟨j, by simpa using lt_trans hj hi⟩ := by
                simp only [List.get_eq_getElem, List.getElem_map]
                rw [show posts[i + 1 + k] = r from hrk, hrid, ← hid]
                simp [List.get_eq_getElem]
              have := (List.Nodup.get_inj_iff hnd).mp heq
              simp only [Fin.mk.injEq] at this
              omega
            have hmem : (posts.get ⟨i, hi⟩).id ∈
                (buildThreads posts).2 ((posts.get ⟨i, hi⟩).parent) := by
              have hatt := threadFold_attach (posts.map (·.id)) ([], fun _ => [])
                (posts.take i) (posts.drop (i + 1)) (posts.get ⟨i, hi⟩) hz hin hnores
              rw [hdecomp] at hatt
              exact hatt
            exact Reaches.child (hid ▸ hreach_q) hmem
    rw [← hpid, ← hget]
    exact key i hi

end DiscussionProcessor

/-- C1 (amended): every sanitized post with `content_present = true` whose
parent id is the sentinel 0 becomes a root, and a post whose parent id is
found among the sanitized ids is attached under that parent; an orphan
(parent neither 0 nor a present id) is dropped from the thread forest rather
than treated as a de-facto root.  Provided the sanitized ids are distinct and
every post's parent is the sentinel or the id of an earlier post in scan
order, the set of node ids reachable from the roots equals the set of ids of
input posts with `content_present = true`. -/
theorem C1_thread_integrity (getText : String → String)
    (raws : List DiscussionProcessor.RawPost)
    (hnd : ((DiscussionProcessor.contentPosts getText raws).map (·.id)).Nodup)
    (hord : ∀ i (h : i < (DiscussionProcessor.contentPosts getText raws).length),
      ((DiscussionProcessor.contentPosts getText raws).get ⟨i, h⟩).parent = 0 ∨
      ∃ j, ∃ hj : j < i,
        ((DiscussionProcessor.contentPosts getText raws).get ⟨j, lt_trans hj h⟩).id =
          ((DiscussionProcessor.contentPosts getText raws).get ⟨i, h⟩).parent) :
    (∀ p ∈ DiscussionProcessor.contentPosts getText raws, p.parent = 0 →
      p.id ∈ (DiscussionProcessor.structure_discussion_data getText raws).roots) ∧
    (∀ n, DiscussionProcessor.Reaches
        (DiscussionProcessor.structure_discussion_data getText raws).roots
        (DiscussionProcessor.structure_discussion_data getText raws).rep n ↔
      n ∈ (DiscussionProcessor.structure_discussion_data getText raws).posts.map (·.id)) := by
  constructor
  · intro p hp hp0
    exact DiscussionProcessor.threadFold_root_mem _ _ _ _ hp hp0
  · exact DiscussionProcessor.buildThreads_reaches _ hnd hord

/-- C1 witness: a root post and its reply (scan order root-first, distinct
ids): both ids are reachable in the reconstructed forest. -/
theorem C1_thread_integrity_witness :
    ((DiscussionProcessor.contentPosts (fun x => x) [c1RootRaw, c1ReplyRaw]).map (·.id)).Nodup ∧
    DiscussionProcessor.Reaches
      (DiscussionProcessor.structure_discussion_data (fun x => x) [c1RootRaw, c1ReplyRaw]).roots
      (DiscussionProcessor.structure_discussion_data (fun x => x) [c1RootRaw, c1ReplyRaw]).rep
      2 :=
  ⟨by decide,
    ((C1_thread_integrity (fun x => x) [c1RootRaw, c1ReplyRaw] (by decide)
      (by
        intro i h
        have hl : (DiscussionProcessor.contentPosts (fun x => x)
            [c1RootRaw, c1ReplyRaw]).length = 2 := by decide
        match i, h with
        | 0, h => exact Or.inl rfl
        | 1, h => exact Or.inr ⟨0, Nat.one_pos, rfl⟩
        | (n + 2), h => rw [hl] at h; omega)).2
      2).mpr (by decide)⟩
